import Mathlib

/-!
# tusdmongostore: a resumable-upload store over a document collection and GridFS

Shallow embedding of `mongostore.go`.  The five operations of `MongoStore`
(`NewUpload`, `WriteChunk`, `GetInfo`, `GetReader`, `Terminate`) are translated
statement by statement into functions over an explicit database state.  The two
backing services (the document collection and the GridFS bucket `fs`) are not
part of the repository; their operations follow the contracts of sections 4.1
and 4.2 of the specification.  Object ids of the driver (`bson.ObjectId`, `Hex`,
`ObjectIdHex`) carry their hexadecimal decoding, which accepts digits in either
case and panics on a string that is not 24 hexadecimal digits, so a call has an
outcome: it returns, or it panics.
-/

namespace MongoStore

/-! ## Data model -/

/-- One byte of upload content. -/
abbrev Byte := UInt8

/-- Go `[]byte`. -/
abbrev Bytes := List Byte

/-- Error taxonomy of section 7 of the specification. -/
inductive StoreError where
  | NotFound
  | DuplicateKey
  | AlreadyExists
  | IOFailure
deriving DecidableEq, Repr

/-- Go `int64` conversion / arithmetic result: reduction of a mathematical
integer to two's complement on 64 bits. -/
def int64 (n : Int) : Int := (n + 2 ^ 63) % 2 ^ 64 - 2 ^ 63

/-- Outcome of a Go call: it returns its results, or it panics. -/
inductive Call (α : Type) where
  | returns (v : α)
  | panics
deriving DecidableEq, Repr

/-- Modelled from the spec: the type `bson.ObjectId` of the database driver,
which is not part of the repository.  An object id is 12 bytes; it is kept here
as its 24 hexadecimal digits, two per byte. -/
structure ObjectId where
  digits : List (Fin 16)
  size : digits.length = 24
deriving DecidableEq, Repr

/-- Lower-case hexadecimal digit of a value below 16 (`0123456789abcdef`). -/
def hexDigit (n : Fin 16) : Char :=
  if n.val < 10 then Char.ofNat (48 + n.val) else Char.ofNat (87 + n.val)

/-- Value of a hexadecimal digit, in either case; `none` for any other
character. -/
def fromHexChar (c : Char) : Option (Fin 16) :=
  if 48 ≤ c.toNat ∧ c.toNat ≤ 57 then some ⟨(c.toNat - 48) % 16, Nat.mod_lt _ (by decide)⟩
  else if 97 ≤ c.toNat ∧ c.toNat ≤ 102 then some ⟨(c.toNat - 87) % 16, Nat.mod_lt _ (by decide)⟩
  else if 65 ≤ c.toNat ∧ c.toNat ≤ 70 then some ⟨(c.toNat - 55) % 16, Nat.mod_lt _ (by decide)⟩
  else none

/-- Values of a sequence of hexadecimal digits; `none` if some character is
not one. -/
def decodeHex : List Char → Option (List (Fin 16))
  | [] => some []
  | c :: cs =>
    match fromHexChar c, decodeHex cs with
    | some d, some ds => some (d :: ds)
    | _, _ => none

/-- Modelled from the spec: the method `id.Hex()` of the database driver, the
lower-case hexadecimal form of the object id. -/
def ObjectId.Hex (id : ObjectId) : String := String.mk (id.digits.map hexDigit)

/-- Modelled from the spec: the function `bson.ObjectIdHex(s)` of the database
driver, which decodes the hexadecimal form of an object id, in either case of
the digits, and panics (`none`) on a string that is not 24 hexadecimal
digits. -/
def ObjectIdHex (s : String) : Option ObjectId :=
  match decodeHex s.data with
  | some d => if h : d.length = 24 then some ⟨d, h⟩ else none
  | none => none

/-- Struct `FileInfo` of `mongostore.go` (the stored document). -/
structure FileInfo where
  Id : ObjectId
  Size : Int
  SizeIsDeferred : Bool
  Offset : Int
  MetaData : List (String × String)
  IsPartial : Bool
  IsFinal : Bool
  PartialUploads : List String
deriving DecidableEq, Repr

/-- Modelled from the spec: the struct `tusd.FileInfo` of the upload-protocol
package, with the fields that `mongostore.go` reads and writes, and its `ID`. -/
structure TusdFileInfo where
  ID : String
  Size : Int
  SizeIsDeferred : Bool
  Offset : Int
  MetaData : List (String × String)
  IsPartial : Bool
  IsFinal : Bool
  PartialUploads : List String
deriving DecidableEq, Repr

/-- Go zero value of `tusd.FileInfo` (`var info tusd.FileInfo`). -/
def TusdFileInfo.zero : TusdFileInfo :=
  { ID := "", Size := 0, SizeIsDeferred := false, Offset := 0, MetaData := [],
    IsPartial := false, IsFinal := false, PartialUploads := [] }

/-- An `io.Reader`: either it yields a byte sequence to the end, or reading it
fails. -/
inductive Reader where
  | bytes (data : Bytes)
  | broken (e : StoreError)
deriving DecidableEq, Repr

/-- Function `ioutil.ReadAll` on a caller-supplied reader. -/
def Reader.ReadAll : Reader → Except StoreError Bytes
  | .bytes data => .ok data
  | .broken e => .error e

/-- State of the database behind the session: the upload collection, keyed by
object id, and the GridFS bucket `fs`, keyed by file name. -/
structure DB where
  coll : ObjectId → Option FileInfo
  fs : String → Option Bytes

/-- The database with no record and no blob. -/
def DB.empty : DB := { coll := fun _ => none, fs := fun _ => none }

/-- A GridFS file handle: the name it is bound to and the content seen through
it. -/
structure GridFile where
  name : String
  data : Bytes
deriving DecidableEq, Repr

/-! ## Record store (section 4.2) -/

/-- Modelled from the spec: `insert(record)`, which fails with `DuplicateKey`
if the id is already present. -/
def Insert (db : DB) (req : FileInfo) : Except StoreError DB :=
  match db.coll req.Id with
  | some _ => .error .DuplicateKey
  | none => .ok { db with coll := Function.update db.coll req.Id (some req) }

/-- Modelled from the spec: `findById(id)`, which fails with `NotFound`. -/
def FindId (db : DB) (id : ObjectId) : Except StoreError FileInfo :=
  match db.coll id with
  | some r => .ok r
  | none => .error .NotFound

/-- The update document of `UpdateId`: field replacements under `$set`.  Only
the fields named are replaced. -/
structure SetDoc where
  offset : Option Int

/-- Field replacement of a `$set` document on one record. -/
def SetDoc.apply (u : SetDoc) (r : FileInfo) : FileInfo :=
  match u.offset with
  | some v => { r with Offset := v }
  | none => r

/-- Modelled from the spec: `updateFields(id, fieldSet)`, a field-wise update
that fails with `NotFound` if the id is absent. -/
def UpdateId (db : DB) (id : ObjectId) (u : SetDoc) : Except StoreError DB :=
  match db.coll id with
  | some r => .ok { db with coll := Function.update db.coll id (some (u.apply r)) }
  | none => .error .NotFound

/-- Modelled from the spec: `removeById(id)`, which fails with `NotFound` if
the id is absent. -/
def RemoveId (db : DB) (id : ObjectId) : Except StoreError DB :=
  match db.coll id with
  | some _ => .ok { db with coll := Function.update db.coll id none }
  | none => .error .NotFound

/-! ## Blob store (section 4.1) -/

/-- Modelled from the spec: `create(id)`, which allocates an empty blob under
the name and fails with `AlreadyExists` if one is already bound to it. -/
def GridFS.Create (db : DB) (name : String) : Except StoreError (DB × GridFile) :=
  match db.fs name with
  | some _ => .error .AlreadyExists
  | none => .ok ({ db with fs := Function.update db.fs name (some []) }, ⟨name, []⟩)

/-- Modelled from the spec: `open(id)`, which fails with `NotFound` if the
blob is absent. -/
def GridFS.Open (db : DB) (name : String) : Except StoreError GridFile :=
  match db.fs name with
  | some b => .ok ⟨name, b⟩
  | none => .error .NotFound

/-- Modelled from the spec: `size(handle)`, the current byte length. -/
def GridFile.Size (f : GridFile) : Int := f.data.length

/-- Modelled from the spec: `readAll(handle)`, the full content. -/
def GridFile.ReadAll (f : GridFile) : Except StoreError Bytes := .ok f.data

/-- Modelled from the spec: `remove(id)`, which deletes the blob and fails
with `NotFound` if it is absent. -/
def GridFS.Remove (db : DB) (name : String) : Except StoreError DB :=
  match db.fs name with
  | some _ => .ok { db with fs := Function.update db.fs name none }
  | none => .error .NotFound

/-- Modelled from the spec: `write(handle, bytes)` on a created handle; the
bytes become the content of the blob the handle is bound to. -/
def GridFile.Write (db : DB) (f : GridFile) (b : Bytes) : Except StoreError DB :=
  .ok { db with fs := Function.update db.fs f.name (some (f.data ++ b)) }

/-- Modelled from the spec: `close(handle)`. -/
def GridFile.Close (_f : GridFile) : Option StoreError := none

/-! ## Upload session manager (`mongostore.go`) -/

/-- Method `MongoStore.NewUpload`.  The argument `id` is the value returned by
`bson.NewObjectId()`.  Returns the database, the id string and the error. -/
def NewUpload (db : DB) (id : ObjectId) (info : TusdFileInfo) :
    DB × String × Option StoreError :=
  let req : FileInfo :=
    { Id := id, Size := info.Size, SizeIsDeferred := info.SizeIsDeferred,
      Offset := info.Offset, MetaData := info.MetaData, IsPartial := info.IsPartial,
      IsFinal := info.IsFinal, PartialUploads := info.PartialUploads }
  match Insert db req with
  | .error err => (db, "", some err)
  | .ok db1 =>
    match GridFS.Create db1 id.Hex with
    | .error err => (db1, "", some err)
    | .ok (db2, file) =>
      match file.Close with
      | some err => (db2, "", some err)
      | none => (db2, id.Hex, none)

/-- Method `MongoStore.WriteChunk`.  Returns the database and the outcome of
the call: the byte count and the error, or a panic. -/
def WriteChunk (db : DB) (id : String) (offset : Int) (src : Reader) :
    DB × Call (Int × Option StoreError) :=
  match GridFS.Open db id with
  | .error err => (db, .returns (0, some err))
  | .ok currentFile =>
    match (if currentFile.Size > 0 then currentFile.ReadAll else .ok []) with
    | .error err => (db, .returns (0, some err))
    | .ok current =>
      match src.ReadAll with
      | .error err => (db, .returns (0, some err))
      | .ok new =>
        match currentFile.Close with
        | some err => (db, .returns (0, some err))
        | none =>
          match GridFS.Remove db id with
          | .error err => (db, .returns (0, some err))
          | .ok db1 =>
            match GridFS.Create db1 id with
            | .error err => (db1, .returns (0, some err))
            | .ok (db2, file) =>
              match file.Write db2 (current ++ new) with
              | .error err => (db2, .returns (0, some err))
              | .ok db3 =>
                match file.Close with
                | some err => (db3, .returns (0, some err))
                | none =>
                  match ObjectIdHex id with
                  | none => (db3, .panics)
                  | some oid =>
                    match FindId db3 oid with
                    | .error err => (db3, .returns (0, some err))
                    | .ok _resp =>
                      let update : SetDoc :=
                        { offset := some (int64 (int64 new.length + offset)) }
                      match ObjectIdHex id with
                      | none => (db3, .panics)
                      | some oid1 =>
                        match UpdateId db3 oid1 update with
                        | .error err => (db3, .returns (int64 new.length, some err))
                        | .ok db4 => (db4, .returns (int64 new.length, none))

/-- Method `MongoStore.GetInfo`. -/
def GetInfo (db : DB) (id : String) : Call (TusdFileInfo × Option StoreError) :=
  let info := TusdFileInfo.zero
  match ObjectIdHex id with
  | none => .panics
  | some oid =>
    match FindId db oid with
    | .error err => .returns (info, some err)
    | .ok resp =>
      .returns ({ info with Size := resp.Size, SizeIsDeferred := resp.SizeIsDeferred,
                            Offset := resp.Offset, MetaData := resp.MetaData,
                            IsPartial := resp.IsPartial, IsFinal := resp.IsFinal,
                            PartialUploads := resp.PartialUploads }, none)

/-- Method `MongoStore.GetReader`.  A nil reader is `none`. -/
def GetReader (db : DB) (id : String) : Option Reader × Option StoreError :=
  match GridFS.Open db id with
  | .error err => (none, some err)
  | .ok file =>
    match (if file.Size > 0 then file.ReadAll else .ok []) with
    | .error err => (none, some err)
    | .ok body =>
      match file.Close with
      | some err => (none, some err)
      | none => (some (Reader.bytes body), none)

/-- Method `MongoStore.Terminate`.  Returns the database and the outcome of
the call: the error, or a panic. -/
def Terminate (db : DB) (id : String) : DB × Call (Option StoreError) :=
  match ObjectIdHex id with
  | none => (db, .panics)
  | some oid =>
    match RemoveId db oid with
    | .error err => (db, .returns (some err))
    | .ok db1 =>
      match GridFS.Remove db1 id with
      | .error err => (db1, .returns (some err))
      | .ok db2 => (db2, .returns none)

/-! ## Call sequences -/

/-- One call on the store. -/
inductive Op where
  | NewUpload (id : ObjectId) (info : TusdFileInfo)
  | WriteChunk (id : String) (offset : Int) (src : Reader)
  | GetInfo (id : String)
  | GetReader (id : String)
  | Terminate (id : String)

/-- Database after one call. -/
def step (db : DB) : Op → DB
  | .NewUpload id info => (NewUpload db id info).1
  | .WriteChunk id offset src => (WriteChunk db id offset src).1
  | .GetInfo _ => db
  | .GetReader _ => db
  | .Terminate id => (Terminate db id).1

/-- Database after a sequence of calls. -/
def run (db : DB) (ops : List Op) : DB := ops.foldl step db

/-- Writes the chunks in order, the first at `offset` and each next one at the
previous offset plus the previous chunk's length; the flag tells whether every
call succeeded. -/
def writeAll (db : DB) (id : String) : Int → List Bytes → DB × Bool
  | _, [] => (db, true)
  | offset, c :: cs =>
    match WriteChunk db id offset (Reader.bytes c) with
    | (db1, .returns (_, none)) => writeAll db1 id (offset + c.length) cs
    | (db1, _) => (db1, false)

/-! ## Predicates on states and call sequences, worked inputs -/

/-- The declared part of a record: every field but the offset. -/
def FileInfo.declared (r : FileInfo) : FileInfo := { r with Offset := 0 }

/-- A well-formed object id used in the worked examples. -/
def sampleId : ObjectId :=
  ⟨[5, 0, 7, 15, 1, 15, 7, 7, 11, 12, 15, 8, 6, 12, 13, 7, 9, 9, 4, 3, 9, 0, 1, 1], by decide⟩

/-- A second well-formed object id used in the worked examples. -/
def otherId : ObjectId :=
  ⟨[5, 0, 7, 15, 1, 9, 1, 14, 8, 1, 0, 12, 1, 9, 7, 2, 9, 13, 14, 8, 6, 0, 14, 10], by decide⟩

/-- The hexadecimal form of `sampleId` written with upper-case digits. -/
def upperId : String := "507F1F77BCF86CD799439011"

/-- Declared info of the concrete scenario of the specification: size 10,
metadata `name = a.txt`. -/
def sampleInfo : TusdFileInfo :=
  { TusdFileInfo.zero with Size := 10, MetaData := [("name", "a.txt")] }

/-- A database holding the blob `[1, 2]` under the sample id and no record. -/
def orphanBlob : DB :=
  { coll := fun _ => none,
    fs := fun name => if name = sampleId.Hex then some [1, 2] else none }

/-- A database holding the blob `[1, 2]` under the name `abc`, which is not
the hexadecimal form of an object id, and no record. -/
def strayBlob : DB :=
  { coll := fun _ => none,
    fs := fun name => if name = "abc" then some [1, 2] else none }

/-- Calls of the witnesses: two chunk writes on the upload, reads of it, and
the creation, writing and termination of another upload. -/
def sampleCalls : List Op :=
  [ .WriteChunk sampleId.Hex 0 (.bytes [104, 101, 108, 108, 111]),
    .GetInfo sampleId.Hex,
    .NewUpload otherId TusdFileInfo.zero,
    .WriteChunk otherId.Hex 0 (.bytes [1]),
    .Terminate otherId.Hex,
    .WriteChunk sampleId.Hex 5 (.bytes [119, 111, 114, 108, 100]),
    .GetReader sampleId.Hex ]

/-- A database holding the upload of `sampleId`, with the five bytes of
`hello` written, and the upload of `otherId`, each with its record and its
blob. -/
def twoUploads : DB :=
  run DB.empty
    [ .NewUpload sampleId sampleInfo,
      .WriteChunk sampleId.Hex 0 (.bytes [104, 101, 108, 108, 111]),
      .NewUpload otherId TusdFileInfo.zero ]

/-- Sum of the lengths of the chunks. -/
def totalLength (chunks : List Bytes) : Nat := (chunks.map List.length).sum

/-- Offset/blob agreement: every record's offset is the number of bytes of
the blob stored under the same id. -/
def Agree (db : DB) : Prop :=
  ∀ oid r, db.coll oid = some r → ∃ b, db.fs oid.Hex = some b ∧ r.Offset = b.length

/-- Every blob is named by the hexadecimal form of one of the object ids
handed out so far. -/
def BlobsIssued (used : List ObjectId) (db : DB) : Prop :=
  ∀ name b, db.fs name = some b → ∃ oid, oid ∈ used ∧ name = oid.Hex

/-- Object ids handed out by `bson.NewObjectId()` once the call is made. -/
def Op.issue (used : List ObjectId) : Op → List ObjectId
  | .NewUpload id _ => id :: used
  | _ => used

/-- The object id that `bson.NewObjectId()` hands to the call was not handed
out before. -/
def Op.fresh (used : List ObjectId) : Op → Bool
  | .NewUpload id _ => decide (id ∉ used)
  | _ => true

/-- No object id is handed out twice in the sequence, nor is one of `used`
handed out again. -/
def FreshFrom : List ObjectId → List Op → Bool
  | _, [] => true
  | used, op :: ops => op.fresh used && FreshFrom (op.issue used) ops

/-- The ids generated by `bson.NewObjectId()` in the sequence are unique. -/
def FreshIds (ops : List Op) : Bool := FreshFrom [] ops

/-- The call is made by a caller that tracks the offset: an upload is declared
with offset 0, and a chunk is written at the offset currently recorded for the
upload, the extended content staying within the length of a Go slice. -/
def Op.tracksOffset (db : DB) : Op → Bool
  | .NewUpload _ info => decide (info.Offset = 0)
  | .WriteChunk id offset src =>
    match ObjectIdHex id with
    | none => true
    | some oid =>
      match db.coll oid, db.fs id, src with
      | some r, some e, .bytes n =>
        decide (offset = r.Offset) && decide ((e.length : Int) + n.length < 2 ^ 63)
      | _, _, _ => true
  | _ => true

/-- Every call of the sequence, made from the state it is reached in, tracks
the offset. -/
def Tracked : DB → List Op → Bool
  | _, [] => true
  | db, op :: ops => op.tracksOffset db && Tracked (step db op) ops

/-- Calls of the counterexample of C2: an upload is created, then one byte is
written at claimed offset 7. -/
def staleCalls : List Op :=
  [ .NewUpload sampleId sampleInfo, .WriteChunk sampleId.Hex 7 (.bytes [1]) ]

/-- Offset bounded by size: every record whose size is not deferred has
`offset <= size`. -/
def Bounded (db : DB) : Prop :=
  ∀ oid r, db.coll oid = some r → r.SizeIsDeferred = false → r.Offset ≤ r.Size

/-- The call respects the declared size: an upload is declared with
`offset <= size` unless its size is deferred, and a chunk written to an upload
whose size is not deferred ends at or before that size. -/
def Op.withinSize (db : DB) : Op → Bool
  | .NewUpload _ info => info.SizeIsDeferred || decide (info.Offset ≤ info.Size)
  | .WriteChunk id offset src =>
    match ObjectIdHex id with
    | none => true
    | some oid =>
      match db.coll oid, src with
      | some r, .bytes n =>
        r.SizeIsDeferred || decide (int64 (int64 n.length + offset) ≤ r.Size)
      | _, _ => true
  | _ => true

/-- Every call of the sequence, made from the state it is reached in, respects
the declared size. -/
def Sized : DB → List Op → Bool
  | _, [] => true
  | db, op :: ops => op.withinSize db && Sized (step db op) ops

/-- Calls of the counterexample of C8: an upload of declared size 1 is
created, then two bytes are written at offset 0. -/
def oversizeCalls : List Op :=
  [ .NewUpload sampleId { sampleInfo with Size := 1 },
    .WriteChunk sampleId.Hex 0 (.bytes [1, 2]) ]

/-- Calls of the witness of C8: the concrete scenario, ten bytes written
into an upload of size 10, and an upload of deferred size that is written and
terminated. -/
def sizedCalls : List Op :=
  [ .NewUpload sampleId sampleInfo,
    .WriteChunk sampleId.Hex 0 (.bytes [104, 101, 108, 108, 111]),
    .NewUpload otherId { TusdFileInfo.zero with SizeIsDeferred := true },
    .WriteChunk otherId.Hex 0 (.bytes [1]),
    .WriteChunk sampleId.Hex 5 (.bytes [119, 111, 114, 108, 100]),
    .Terminate otherId.Hex ]

/-! ## Object ids and their hexadecimal form -/

theorem fromHexChar_hexDigit : ∀ n : Fin 16, fromHexChar (hexDigit n) = some n := by
  decide

theorem decodeHex_map (l : List (Fin 16)) : decodeHex (l.map hexDigit) = some l := by
  induction l with
  | nil => rfl
  | cons d ds ih => simp [decodeHex, fromHexChar_hexDigit, ih]

theorem ObjectIdHex_Hex (oid : ObjectId) : ObjectIdHex oid.Hex = some oid := by
  cases oid with
  | mk digits size => simp [ObjectIdHex, ObjectId.Hex, decodeHex_map, size]

theorem Hex_injective {a b : ObjectId} (h : a.Hex = b.Hex) : a = b := by
  have h1 := ObjectIdHex_Hex a
  rw [h, ObjectIdHex_Hex b] at h1
  exact (Option.some.inj h1).symm

/-! ## Characterisation of the operations -/

theorem current_read (f : GridFile) :
    (if f.Size > 0 then f.ReadAll else (.ok [] : Except StoreError Bytes)) = .ok f.data := by
  unfold GridFile.Size GridFile.ReadAll
  cases h : f.data with
  | nil => simp
  | cons a l => simp

theorem WriteChunk_no_blob (db : DB) (id : String) (offset : Int) (src : Reader)
    (h : db.fs id = none) :
    WriteChunk db id offset src = (db, .returns (0, some .NotFound)) := by
  simp [WriteChunk, GridFS.Open, h]

theorem WriteChunk_broken (db : DB) (id : String) (offset : Int) (e : Bytes)
    (err : StoreError) (h : db.fs id = some e) :
    WriteChunk db id offset (.broken err) = (db, .returns (0, some err)) := by
  simp [WriteChunk, GridFS.Open, h, current_read, Reader.ReadAll]

theorem WriteChunk_malformed (db : DB) (id : String) (offset : Int) (e n : Bytes)
    (h : db.fs id = some e) (hid : ObjectIdHex id = none) :
    WriteChunk db id offset (.bytes n) =
      ({ db with fs := Function.update db.fs id (some (e ++ n)) }, .panics) := by
  simp [WriteChunk, GridFS.Open, h, current_read, Reader.ReadAll, GridFile.Close,
    GridFS.Remove, GridFS.Create, GridFile.Write, hid]

theorem WriteChunk_no_record (db : DB) (id : String) (offset : Int) (e n : Bytes)
    (oid : ObjectId) (h : db.fs id = some e) (hid : ObjectIdHex id = some oid)
    (hr : db.coll oid = none) :
    WriteChunk db id offset (.bytes n) =
      ({ db with fs := Function.update db.fs id (some (e ++ n)) },
        .returns (0, some .NotFound)) := by
  simp [WriteChunk, GridFS.Open, h, current_read, Reader.ReadAll, GridFile.Close,
    GridFS.Remove, GridFS.Create, GridFile.Write, FindId, hid, hr]

theorem WriteChunk_ok (db : DB) (id : String) (offset : Int) (e n : Bytes) (oid : ObjectId)
    (r : FileInfo) (h : db.fs id = some e) (hid : ObjectIdHex id = some oid)
    (hr : db.coll oid = some r) :
    WriteChunk db id offset (.bytes n) =
      ({ coll := Function.update db.coll oid
            (some { r with Offset := int64 (int64 n.length + offset) }),
         fs := Function.update db.fs id (some (e ++ n)) },
        .returns (int64 n.length, none)) := by
  simp [WriteChunk, GridFS.Open, h, current_read, Reader.ReadAll, GridFile.Close,
    GridFS.Remove, GridFS.Create, GridFile.Write, FindId, hid, hr, UpdateId, SetDoc.apply]

theorem int64_of_range (n : Int) (h1 : -(2 ^ 63) ≤ n) (h2 : n < 2 ^ 63) : int64 n = n := by
  unfold int64
  omega

theorem NewUpload_duplicate (db : DB) (id : ObjectId) (info : TusdFileInfo) (r : FileInfo)
    (h : db.coll id = some r) : NewUpload db id info = (db, "", some .DuplicateKey) := by
  simp [NewUpload, Insert, h]

theorem NewUpload_ok (db : DB) (id : ObjectId) (info : TusdFileInfo)
    (h : db.coll id = none) (hb : db.fs id.Hex = none) :
    NewUpload db id info =
      ({ coll := Function.update db.coll id (some
            { Id := id, Size := info.Size, SizeIsDeferred := info.SizeIsDeferred,
              Offset := info.Offset, MetaData := info.MetaData,
              IsPartial := info.IsPartial, IsFinal := info.IsFinal,
              PartialUploads := info.PartialUploads }),
         fs := Function.update db.fs id.Hex (some []) }, id.Hex, none) := by
  simp [NewUpload, Insert, h, GridFS.Create, hb, GridFile.Close]

theorem NewUpload_success (db db1 : DB) (oid : ObjectId) (info : TusdFileInfo) (id : String)
    (h : NewUpload db oid info = (db1, id, none)) :
    id = oid.Hex ∧ db.coll oid = none ∧ db.fs oid.Hex = none := by
  cases hc : db.coll oid with
  | some r => rw [NewUpload_duplicate db oid info r hc] at h; simp at h
  | none =>
    cases hb : db.fs oid.Hex with
    | some b => simp [NewUpload, Insert, hc, GridFS.Create, hb] at h
    | none =>
      rw [NewUpload_ok db oid info hc hb] at h
      simp only [Prod.mk.injEq] at h
      exact ⟨h.2.1.symm, rfl, rfl⟩

theorem NewUpload_created (db db1 : DB) (oid : ObjectId) (info : TusdFileInfo) (id : String)
    (h : NewUpload db oid info = (db1, id, none)) :
    id = oid.Hex ∧ ObjectIdHex id = some oid ∧ db1.fs id = some [] ∧
    db1.coll oid = some
      { Id := oid, Size := info.Size, SizeIsDeferred := info.SizeIsDeferred,
        Offset := info.Offset, MetaData := info.MetaData,
        IsPartial := info.IsPartial, IsFinal := info.IsFinal,
        PartialUploads := info.PartialUploads } := by
  obtain ⟨hid, hc, hb⟩ := NewUpload_success db db1 oid info id h
  rw [NewUpload_ok db oid info hc hb] at h
  simp only [Prod.mk.injEq, and_true] at h
  obtain ⟨h1, -⟩ := h
  subst hid
  refine ⟨rfl, ObjectIdHex_Hex oid, ?_, ?_⟩
  · rw [← h1]; exact Function.update_same _ _ _
  · rw [← h1]; exact Function.update_same _ _ _

theorem Terminate_malformed (db : DB) (id : String) (h : ObjectIdHex id = none) :
    Terminate db id = (db, .panics) := by
  simp [Terminate, h]

theorem Terminate_no_record (db : DB) (id : String) (oid : ObjectId)
    (hid : ObjectIdHex id = some oid) (h : db.coll oid = none) :
    Terminate db id = (db, .returns (some .NotFound)) := by
  simp [Terminate, hid, RemoveId, h]

theorem Terminate_no_blob (db : DB) (id : String) (oid : ObjectId) (r : FileInfo)
    (hid : ObjectIdHex id = some oid) (h : db.coll oid = some r) (hb : db.fs id = none) :
    Terminate db id =
      ({ db with coll := Function.update db.coll oid none }, .returns (some .NotFound)) := by
  simp [Terminate, hid, RemoveId, h, GridFS.Remove, hb]

theorem Terminate_ok (db : DB) (id : String) (oid : ObjectId) (r : FileInfo) (b : Bytes)
    (hid : ObjectIdHex id = some oid) (h : db.coll oid = some r) (hb : db.fs id = some b) :
    Terminate db id =
      ({ coll := Function.update db.coll oid none,
         fs := Function.update db.fs id none }, .returns none) := by
  simp [Terminate, hid, RemoveId, h, GridFS.Remove, hb]

theorem GetInfo_malformed (db : DB) (id : String) (h : ObjectIdHex id = none) :
    GetInfo db id = .panics := by
  simp [GetInfo, h]

theorem GetInfo_no_record (db : DB) (id : String) (oid : ObjectId)
    (hid : ObjectIdHex id = some oid) (h : db.coll oid = none) :
    GetInfo db id = .returns (TusdFileInfo.zero, some .NotFound) := by
  simp [GetInfo, hid, FindId, h]

theorem GetInfo_ok (db : DB) (id : String) (oid : ObjectId) (r : FileInfo)
    (hid : ObjectIdHex id = some oid) (h : db.coll oid = some r) :
    GetInfo db id =
      .returns
        ({ ID := "", Size := r.Size, SizeIsDeferred := r.SizeIsDeferred, Offset := r.Offset,
           MetaData := r.MetaData, IsPartial := r.IsPartial, IsFinal := r.IsFinal,
           PartialUploads := r.PartialUploads }, none) := by
  simp [GetInfo, hid, FindId, h, TusdFileInfo.zero]

theorem GetReader_no_blob (db : DB) (id : String) (h : db.fs id = none) :
    GetReader db id = (none, some .NotFound) := by
  simp [GetReader, GridFS.Open, h]

theorem GetReader_ok (db : DB) (id : String) (b : Bytes) (h : db.fs id = some b) :
    GetReader db id = (some (Reader.bytes b), none) := by
  simp [GetReader, GridFS.Open, h, current_read, GridFile.Close]

/-! ## Frame lemmas -/

theorem WriteChunk_coll_other (db : DB) (id : String) (offset : Int) (src : Reader)
    (key : ObjectId) (h : ObjectIdHex id ≠ some key) :
    (WriteChunk db id offset src).1.coll key = db.coll key := by
  cases hb : db.fs id with
  | none => rw [WriteChunk_no_blob db id offset src hb]
  | some e =>
    cases src with
    | broken err => rw [WriteChunk_broken db id offset e err hb]
    | bytes n =>
      cases hid : ObjectIdHex id with
      | none => rw [WriteChunk_malformed db id offset e n hb hid]
      | some oid =>
        cases hr : db.coll oid with
        | none => rw [WriteChunk_no_record db id offset e n oid hb hid hr]
        | some r =>
          rw [WriteChunk_ok db id offset e n oid r hb hid hr]
          have hk : key ≠ oid := fun e => h (by rw [hid, e])
          exact Function.update_noteq hk _ _

theorem WriteChunk_fs_other (db : DB) (id : String) (offset : Int) (src : Reader)
    (name : String) (h : name ≠ id) :
    (WriteChunk db id offset src).1.fs name = db.fs name := by
  cases hb : db.fs id with
  | none => rw [WriteChunk_no_blob db id offset src hb]
  | some e =>
    cases src with
    | broken err => rw [WriteChunk_broken db id offset e err hb]
    | bytes n =>
      cases hid : ObjectIdHex id with
      | none =>
        rw [WriteChunk_malformed db id offset e n hb hid]
        exact Function.update_noteq h _ _
      | some oid =>
        cases hr : db.coll oid with
        | none =>
          rw [WriteChunk_no_record db id offset e n oid hb hid hr]
          exact Function.update_noteq h _ _
        | some r =>
          rw [WriteChunk_ok db id offset e n oid r hb hid hr]
          exact Function.update_noteq h _ _

theorem Terminate_coll_other (db : DB) (id : String) (key : ObjectId)
    (h : ObjectIdHex id ≠ some key) : (Terminate db id).1.coll key = db.coll key := by
  cases hid : ObjectIdHex id with
  | none => rw [Terminate_malformed db id hid]
  | some oid =>
    have hk : key ≠ oid := fun e => h (by rw [hid, e])
    cases h0 : db.coll oid with
    | none => rw [Terminate_no_record db id oid hid h0]
    | some r =>
      cases hb0 : db.fs id with
      | none =>
        rw [Terminate_no_blob db id oid r hid h0 hb0]
        exact Function.update_noteq hk _ _
      | some b =>
        rw [Terminate_ok db id oid r b hid h0 hb0]
        exact Function.update_noteq hk _ _

theorem Terminate_fs_other (db : DB) (id : String) (name : String)
    (h : name ≠ id) : (Terminate db id).1.fs name = db.fs name := by
  cases hid : ObjectIdHex id with
  | none => rw [Terminate_malformed db id hid]
  | some oid =>
    cases h0 : db.coll oid with
    | none => rw [Terminate_no_record db id oid hid h0]
    | some r =>
      cases hb0 : db.fs id with
      | none => rw [Terminate_no_blob db id oid r hid h0 hb0]
      | some b =>
        rw [Terminate_ok db id oid r b hid h0 hb0]
        exact Function.update_noteq h _ _

theorem Terminate_removes_record (db : DB) (id : String) (oid : ObjectId) (r : FileInfo)
    (hid : ObjectIdHex id = some oid) (h : db.coll oid = some r) :
    (Terminate db id).1.coll oid = none := by
  cases hb0 : db.fs id with
  | none =>
    rw [Terminate_no_blob db id oid r hid h hb0]
    exact Function.update_same _ _ _
  | some b =>
    rw [Terminate_ok db id oid r b hid h hb0]
    exact Function.update_same _ _ _

theorem NewUpload_coll_other (db : DB) (oid : ObjectId) (info : TusdFileInfo)
    (key : ObjectId) (h : key ≠ oid) : (NewUpload db oid info).1.coll key = db.coll key := by
  cases hc : db.coll oid with
  | some r => rw [NewUpload_duplicate db oid info r hc]
  | none =>
    cases hb : db.fs oid.Hex with
    | some b =>
      simp only [NewUpload, Insert, hc, GridFS.Create, Function.update_same, hb]
      exact Function.update_noteq h _ _
    | none =>
      rw [NewUpload_ok db oid info hc hb]
      exact Function.update_noteq h _ _

theorem NewUpload_fs_other (db : DB) (oid : ObjectId) (info : TusdFileInfo)
    (name : String) (h : name ≠ oid.Hex) : (NewUpload db oid info).1.fs name = db.fs name := by
  cases hc : db.coll oid with
  | some r => rw [NewUpload_duplicate db oid info r hc]
  | none =>
    cases hb : db.fs oid.Hex with
    | some b =>
      simp only [NewUpload, Insert, hc, GridFS.Create, hb]
    | none =>
      rw [NewUpload_ok db oid info hc hb]
      exact Function.update_noteq h _ _

theorem WriteChunk_keeps_declared (db : DB) (id : String) (offset : Int) (src : Reader)
    (key : ObjectId) (r : FileInfo) (h : db.coll key = some r) :
    ∃ r1, (WriteChunk db id offset src).1.coll key = some r1 ∧ r1.declared = r.declared := by
  by_cases hk : ObjectIdHex id = some key
  · cases hb : db.fs id with
    | none => rw [WriteChunk_no_blob db _ offset src hb]; exact ⟨r, h, rfl⟩
    | some e =>
      cases src with
      | broken err => rw [WriteChunk_broken db _ offset e err hb]; exact ⟨r, h, rfl⟩
      | bytes n =>
        rw [WriteChunk_ok db _ offset e n key r hb hk h]
        exact ⟨_, Function.update_same _ _ _, by simp [FileInfo.declared]⟩
  · rw [WriteChunk_coll_other db id offset src key hk]
    exact ⟨r, h, rfl⟩

theorem NewUpload_keeps_record (db : DB) (oid : ObjectId) (info : TusdFileInfo)
    (key : ObjectId) (r : FileInfo) (h : db.coll key = some r) :
    (NewUpload db oid info).1.coll key = some r := by
  by_cases hk : key = oid
  · subst hk
    rw [NewUpload_duplicate db _ info r h]; exact h
  · rw [NewUpload_coll_other db oid info key hk]; exact h

theorem step_keeps_declared (db : DB) (oid : ObjectId) (op : Op)
    (hop : ∀ id2, op = Op.Terminate id2 → ObjectIdHex id2 ≠ some oid)
    (r : FileInfo) (h : db.coll oid = some r) :
    ∃ r1, (step db op).coll oid = some r1 ∧ r1.declared = r.declared := by
  cases op with
  | NewUpload oid2 info => exact ⟨r, NewUpload_keeps_record db oid2 info _ r h, rfl⟩
  | WriteChunk id2 offset src => exact WriteChunk_keeps_declared db id2 offset src _ r h
  | GetInfo id2 => exact ⟨r, h, rfl⟩
  | GetReader id2 => exact ⟨r, h, rfl⟩
  | Terminate id2 =>
    show ∃ r1, (Terminate db id2).1.coll oid = some r1 ∧ _
    rw [Terminate_coll_other db id2 _ (hop id2 rfl)]
    exact ⟨r, h, rfl⟩

theorem run_keeps_declared (oid : ObjectId) (ops : List Op) :
    ∀ (db : DB) (r : FileInfo),
      (∀ id2, Op.Terminate id2 ∈ ops → ObjectIdHex id2 ≠ some oid) →
      db.coll oid = some r →
      ∃ r1, (run db ops).coll oid = some r1 ∧ r1.declared = r.declared := by
  induction ops with
  | nil => intro db r _ h; exact ⟨r, h, rfl⟩
  | cons op ops ih =>
    intro db r hops h
    obtain ⟨r1, h1, e1⟩ := step_keeps_declared db oid op
      (fun id2 e => hops id2 (by rw [e]; exact List.mem_cons_self _ _)) r h
    obtain ⟨r2, h2, e2⟩ :=
      ih (step db op) r1 (fun id2 ho => hops id2 (List.mem_cons_of_mem _ ho)) h1
    exact ⟨r2, h2, e2.trans e1⟩

theorem writeAll_spec (id : String) (oid : ObjectId) (hid : ObjectIdHex id = some oid)
    (chunks : List Bytes) :
    ∀ (db : DB) (offset : Int) (e : Bytes) (r : FileInfo),
      db.fs id = some e → db.coll oid = some r →
      0 ≤ offset → offset + totalLength chunks < 2 ^ 63 →
      (writeAll db id offset chunks).2 = true ∧
      (writeAll db id offset chunks).1.fs id = some (e ++ chunks.flatten) ∧
      ∃ r1, (writeAll db id offset chunks).1.coll oid = some r1 ∧
        r1.Offset = (if chunks = [] then r.Offset else offset + totalLength chunks) := by
  induction chunks with
  | nil =>
    intro db offset e r hb hr _ _
    exact ⟨rfl, by simpa [writeAll] using hb, r, hr, by simp⟩
  | cons c cs ih =>
    intro db offset e r hb hr h0 hlt
    have htl : (totalLength (c :: cs) : Int) = c.length + totalLength cs := by
      simp [totalLength]
    have hc : int64 (int64 c.length + offset) = offset + c.length := by
      rw [int64_of_range c.length (by omega) (by omega), int64_of_range _ (by omega) (by omega)]
      omega
    have hw := WriteChunk_ok db id offset e c oid r hb hid hr
    rw [hc] at hw
    have hstep : writeAll db id offset (c :: cs) =
        writeAll { coll := Function.update db.coll oid
                      (some { r with Offset := offset + c.length }),
                   fs := Function.update db.fs id (some (e ++ c)) } id
          (offset + c.length) cs := by
      simp only [writeAll, hw]
    rw [hstep]
    obtain ⟨a1, a2, r1, a3, a4⟩ := ih
      { coll := Function.update db.coll oid
          (some { r with Offset := offset + c.length }),
        fs := Function.update db.fs id (some (e ++ c)) } (offset + c.length) (e ++ c)
      { r with Offset := offset + c.length } (Function.update_same _ _ _)
      (Function.update_same _ _ _) (by omega) (by omega)
    refine ⟨a1, by simpa [List.append_assoc] using a2, r1, a3, ?_⟩
    rw [a4]
    by_cases hcs : cs = []
    · subst hcs; simp [totalLength]
    · simp [hcs, htl]; omega

/-! ## Claims -/

/-- C3: when `WriteChunk(id, claimedOffset, incoming)` succeeds it returns
`int64(len(incoming))` and the record's offset afterwards is
`int64(len(incoming)) + claimedOffset` in `int64` arithmetic, whatever offset the
record held before and whatever the length of the existing blob; these are
`len(incoming)` and the exact sum whenever they fit in an `int64`. -/
theorem WriteChunk_offset_from_claim (db db1 : DB) (id : String) (claimedOffset : Int)
    (incoming : Bytes) (n : Int)
    (h : WriteChunk db id claimedOffset (.bytes incoming) = (db1, .returns (n, none))) :
    n = int64 incoming.length ∧
    (∃ oid r, ObjectIdHex id = some oid ∧ db1.coll oid = some r ∧
      r.Offset = int64 (int64 incoming.length + claimedOffset) ∧
      (-(2 ^ 63) ≤ incoming.length + claimedOffset →
        incoming.length + claimedOffset < 2 ^ 63 → (incoming.length : Int) < 2 ^ 63 →
        r.Offset = incoming.length + claimedOffset)) ∧
    ((incoming.length : Int) < 2 ^ 63 → n = incoming.length) := by
  cases hb : db.fs id with
  | none => rw [WriteChunk_no_blob db id claimedOffset _ hb] at h; simp at h
  | some e =>
    cases hid : ObjectIdHex id with
    | none => rw [WriteChunk_malformed db id claimedOffset e incoming hb hid] at h; simp at h
    | some oid =>
      cases hr : db.coll oid with
      | none =>
        rw [WriteChunk_no_record db id claimedOffset e incoming oid hb hid hr] at h
        simp at h
      | some r =>
        rw [WriteChunk_ok db id claimedOffset e incoming oid r hb hid hr] at h
        simp only [Prod.mk.injEq, Call.returns.injEq, and_true] at h
        obtain ⟨h1, h2⟩ := h
        subst h1
        refine ⟨h2.symm, ⟨oid, _, rfl, Function.update_same _ _ _, rfl, ?_⟩, ?_⟩
        · intro a b c
          show int64 (int64 incoming.length + claimedOffset) = _
          rw [int64_of_range incoming.length (by omega) c, int64_of_range _ a b]
        · intro c
          rw [← h2, int64_of_range incoming.length (by omega) c]

/-- Witness of C3: a chunk of two bytes written at claimed offset 7 into a
fresh upload (recorded offset 0, empty blob). -/
theorem WriteChunk_offset_from_claim_witness :
    (WriteChunk (NewUpload DB.empty sampleId sampleInfo).1 sampleId.Hex 7
        (.bytes [1, 2])).2 = .returns (2, none) ∧
    ∃ oid r, ObjectIdHex sampleId.Hex = some oid ∧
      (WriteChunk (NewUpload DB.empty sampleId sampleInfo).1 sampleId.Hex 7
        (.bytes [1, 2])).1.coll oid = some r ∧ r.Offset = 9 := by
  have h := WriteChunk_offset_from_claim (NewUpload DB.empty sampleId sampleInfo).1
    (WriteChunk (NewUpload DB.empty sampleId sampleInfo).1 sampleId.Hex 7 (.bytes [1, 2])).1
    sampleId.Hex 7 [1, 2] 2 rfl
  obtain ⟨_, ⟨oid, r, ho, hr, _, hx⟩, _⟩ := h
  exact ⟨by decide, oid, r, ho, hr, by simpa using hx (by decide) (by decide) (by decide)⟩

/-- C4, as stated, fails: `NewUpload` stores the declared offset, so an upload
declared with offset 5 is created successfully and `GetInfo` reports offset 5,
not 0. -/
theorem zero_length_upload_counterexample :
    (NewUpload DB.empty sampleId { sampleInfo with Offset := 5 }).2 = (sampleId.Hex, none) ∧
    GetInfo (NewUpload DB.empty sampleId { sampleInfo with Offset := 5 }).1 sampleId.Hex
      = .returns ({ sampleInfo with Offset := 5 }, none) ∧
    ({ sampleInfo with Offset := 5 } : TusdFileInfo).Offset ≠ 0 := by
  decide

/-- C4, amended: after `NewUpload(info)` succeeds and returns `id`,
`GetReader(id)` succeeds with an empty byte stream and `GetInfo(id)` succeeds
with the offset declared in `info` (hence 0 when the declared offset is 0). -/
theorem zero_length_upload (db db1 : DB) (oid : ObjectId) (info : TusdFileInfo) (id : String)
    (h : NewUpload db oid info = (db1, id, none)) :
    GetReader db1 id = (some (Reader.bytes []), none) ∧
    ∃ i, GetInfo db1 id = .returns (i, none) ∧
      i.Offset = info.Offset ∧ (info.Offset = 0 → i.Offset = 0) := by
  obtain ⟨-, hid, hb1, hc1⟩ := NewUpload_created db db1 oid info id h
  refine ⟨GetReader_ok db1 id [] hb1, _, GetInfo_ok db1 id oid _ hid hc1, rfl, ?_⟩
  intro h0
  exact h0

/-- Witness of C4 (amended): the upload of the concrete scenario, created in
the empty database. -/
theorem zero_length_upload_witness :
    GetReader (NewUpload DB.empty sampleId sampleInfo).1 sampleId.Hex
      = (some (Reader.bytes []), none) ∧
    ∃ i, GetInfo (NewUpload DB.empty sampleId sampleInfo).1 sampleId.Hex
        = .returns (i, none) ∧ i.Offset = 0 := by
  have h := zero_length_upload DB.empty (NewUpload DB.empty sampleId sampleInfo).1
    sampleId sampleInfo sampleId.Hex rfl
  obtain ⟨h1, i, h2, -, h3⟩ := h
  exact ⟨h1, i, h2, h3 rfl⟩

/-- C5, as stated, fails: `abc` is not the hexadecimal form of an object id
and has neither a record nor a blob in the empty store, yet `GetInfo` and
`Terminate` on it panic in `bson.ObjectIdHex` instead of returning the
`NotFound` error. -/
theorem not_found_propagation_counterexample :
    ObjectIdHex "abc" = none ∧ DB.empty.fs "abc" = none ∧
    GetInfo DB.empty "abc" = .panics ∧
    GetInfo DB.empty "abc" ≠ .returns (TusdFileInfo.zero, some .NotFound) ∧
    (Terminate DB.empty "abc").2 = .panics ∧
    (Terminate DB.empty "abc").2 ≠ .returns (some .NotFound) := by
  decide

/-- C5, amended: when `id` is the hexadecimal form of an object id (24
hexadecimal digits) and has neither a record nor a blob, `GetInfo`,
`GetReader`, `WriteChunk` and `Terminate` on `id` each return the `NotFound`
error (and leave the database as it is); in particular a second `Terminate` on
the same id returns `NotFound`, from any state. -/
theorem not_found_propagation (db : DB) (id : String) (oid : ObjectId) (offset : Int)
    (src : Reader) (hid : ObjectIdHex id = some oid)
    (hr : db.coll oid = none) (hb : db.fs id = none) :
    GetInfo db id = .returns (TusdFileInfo.zero, some .NotFound) ∧
    GetReader db id = (none, some .NotFound) ∧
    WriteChunk db id offset src = (db, .returns (0, some .NotFound)) ∧
    Terminate db id = (db, .returns (some .NotFound)) ∧
    (∀ db0 : DB, (Terminate (Terminate db0 id).1 id).2 = .returns (some .NotFound)) := by
  refine ⟨GetInfo_no_record db id oid hid hr, GetReader_no_blob db id hb,
    WriteChunk_no_blob db id offset src hb, Terminate_no_record db id oid hid hr, ?_⟩
  intro db0
  cases h0 : db0.coll oid with
  | none =>
    rw [Terminate_no_record db0 id oid hid h0, Terminate_no_record db0 id oid hid h0]
  | some r =>
    rw [Terminate_no_record _ id oid hid (Terminate_removes_record db0 id oid r hid h0)]

/-- Witness of C5 (amended): an id never created, in a database holding
another upload. -/
theorem not_found_propagation_witness :
    GetInfo (NewUpload DB.empty sampleId sampleInfo).1 otherId.Hex
      = .returns (TusdFileInfo.zero, some .NotFound) ∧
    GetReader (NewUpload DB.empty sampleId sampleInfo).1 otherId.Hex
      = (none, some .NotFound) ∧
    (WriteChunk (NewUpload DB.empty sampleId sampleInfo).1 otherId.Hex 0
      (.bytes [1])).2 = .returns (0, some .NotFound) ∧
    (Terminate (NewUpload DB.empty sampleId sampleInfo).1 otherId.Hex).2
      = .returns (some .NotFound) := by
  have h := not_found_propagation (NewUpload DB.empty sampleId sampleInfo).1 otherId.Hex
    otherId 0 (.bytes [1]) (by decide) (by decide) (by decide)
  exact ⟨h.1, h.2.1, by rw [h.2.2.1], by rw [h.2.2.2.1]⟩

/-- C6: when `Terminate(id)` returns no error, the resulting state holds
neither a record nor a blob under `id`, and `GetInfo(id)` and `GetReader(id)`
both fail with `NotFound`. -/
theorem Terminate_removes_both (db db1 : DB) (id : String)
    (h : Terminate db id = (db1, .returns none)) :
    (∃ oid, ObjectIdHex id = some oid ∧ db1.coll oid = none) ∧ db1.fs id = none ∧
    GetInfo db1 id = .returns (TusdFileInfo.zero, some .NotFound) ∧
    GetReader db1 id = (none, some .NotFound) := by
  have key : ∃ oid, ObjectIdHex id = some oid ∧ db1.coll oid = none ∧ db1.fs id = none := by
    cases hid : ObjectIdHex id with
    | none => rw [Terminate_malformed db id hid] at h; simp at h
    | some oid =>
      cases h0 : db.coll oid with
      | none => rw [Terminate_no_record db id oid hid h0] at h; simp at h
      | some r =>
        cases hb0 : db.fs id with
        | none => rw [Terminate_no_blob db id oid r hid h0 hb0] at h; simp at h
        | some b =>
          rw [Terminate_ok db id oid r b hid h0 hb0] at h
          simp only [Prod.mk.injEq, and_true] at h
          subst h
          exact ⟨oid, rfl, Function.update_same _ _ _, Function.update_same _ _ _⟩
  obtain ⟨oid, hid, k1, k2⟩ := key
  exact ⟨⟨oid, hid, k1⟩, k2, GetInfo_no_record db1 id oid hid k1, GetReader_no_blob db1 id k2⟩

/-- Witness of C6: terminating the upload of the concrete scenario. -/
theorem Terminate_removes_both_witness :
    GetInfo (Terminate (NewUpload DB.empty sampleId sampleInfo).1 sampleId.Hex).1
      sampleId.Hex = .returns (TusdFileInfo.zero, some .NotFound) ∧
    GetReader (Terminate (NewUpload DB.empty sampleId sampleInfo).1 sampleId.Hex).1
      sampleId.Hex = (none, some .NotFound) := by
  have h := Terminate_removes_both (NewUpload DB.empty sampleId sampleInfo).1
    (Terminate (NewUpload DB.empty sampleId sampleInfo).1 sampleId.Hex).1 sampleId.Hex
    rfl
  exact ⟨h.2.2.1, h.2.2.2⟩

/-- C9, as stated, fails: over a blob `[1, 2]` stored under the name `abc`,
which is not the hexadecimal form of an object id, `WriteChunk` replaces the
blob by `[1, 2, 3]` and then panics in `bson.ObjectIdHex` instead of returning
`(0, NotFound)`. -/
theorem WriteChunk_not_atomic_counterexample :
    strayBlob.fs "abc" = some [1, 2] ∧ ObjectIdHex "abc" = none ∧
    (WriteChunk strayBlob "abc" 2 (.bytes [3])).2 = .panics ∧
    (WriteChunk strayBlob "abc" 2 (.bytes [3])).2 ≠ .returns (0, some .NotFound) ∧
    (WriteChunk strayBlob "abc" 2 (.bytes [3])).1.fs "abc" = some [1, 2, 3] := by
  decide

/-- C9, amended: when `id` is the hexadecimal form of an object id, in a state
where a blob with content `e` exists under `id` but no record does,
`WriteChunk(id, offset, n)` returns `(0, NotFound)` and leaves the blob under
`id` replaced by `e ++ n`; when the blob itself is absent, for every `id`,
`WriteChunk` returns `(0, NotFound)` and the database is unchanged. -/
theorem WriteChunk_not_atomic (db : DB) (id : String) (offset : Int) :
    (∀ (e n : Bytes) (oid : ObjectId), db.fs id = some e → ObjectIdHex id = some oid →
      db.coll oid = none →
      (WriteChunk db id offset (.bytes n)).2 = .returns (0, some .NotFound) ∧
      (WriteChunk db id offset (.bytes n)).1.fs id = some (e ++ n) ∧
      (WriteChunk db id offset (.bytes n)).1.coll = db.coll) ∧
    (∀ src : Reader, db.fs id = none →
      WriteChunk db id offset src = (db, .returns (0, some .NotFound))) := by
  refine ⟨?_, fun src hb => WriteChunk_no_blob db id offset src hb⟩
  intro e n oid hb hid hr
  rw [WriteChunk_no_record db id offset e n oid hb hid hr]
  exact ⟨rfl, Function.update_same _ _ _, rfl⟩

/-- Witness of C9 (amended): an orphaned blob `[1, 2]` extended by `[3]`
although the call fails. -/
theorem WriteChunk_not_atomic_witness :
    (WriteChunk orphanBlob sampleId.Hex 2 (.bytes [3])).2 = .returns (0, some .NotFound) ∧
    (WriteChunk orphanBlob sampleId.Hex 2 (.bytes [3])).1.fs sampleId.Hex
      = some [1, 2, 3] := by
  have h := (WriteChunk_not_atomic orphanBlob sampleId.Hex 2).1 [1, 2] [3] sampleId
    (by decide) (by decide) (by decide)
  exact ⟨h.1, h.2.1⟩

/-- C10, as stated, fails: `upperId` and the id returned by `NewUpload` are
distinct strings, the second written with lower-case digits, yet both decode to
the same object id, so `Terminate(upperId)` removes the record stored under the
returned id and `GetInfo` on the returned id then fails with `NotFound`. -/
theorem per_id_isolation_counterexample :
    upperId ≠ sampleId.Hex ∧
    (NewUpload DB.empty sampleId sampleInfo).2 = (sampleId.Hex, none) ∧
    GetInfo (NewUpload DB.empty sampleId sampleInfo).1 sampleId.Hex
      = .returns (sampleInfo, none) ∧
    (NewUpload DB.empty sampleId sampleInfo).1.coll sampleId ≠ none ∧
    (Terminate (NewUpload DB.empty sampleId sampleInfo).1 upperId).1.coll sampleId = none ∧
    GetInfo (Terminate (NewUpload DB.empty sampleId sampleInfo).1 upperId).1 sampleId.Hex
      = .returns (TusdFileInfo.zero, some .NotFound) := by
  decide

/-- C10, amended: for distinct ids `id` and `id1`, each of `WriteChunk(id, ...)`,
`Terminate(id)`, `GetInfo(id)` and `GetReader(id)`, whatever its outcome, leaves
the blob stored under `id1` unchanged, and leaves the record stored under `id1`
unchanged provided `id` and `id1` do not decode to the same object id (as two
spellings of one hexadecimal form that differ in the case of the digits do);
and `NewUpload` changes no record and no blob other than those of the id it
generates. -/
theorem per_id_isolation (db : DB) (id id1 : String) (h : id ≠ id1) :
    (∀ offset src,
      (WriteChunk db id offset src).1.fs id1 = db.fs id1 ∧
      (∀ key, ObjectIdHex id1 = some key → ObjectIdHex id ≠ ObjectIdHex id1 →
        (WriteChunk db id offset src).1.coll key = db.coll key)) ∧
    ((Terminate db id).1.fs id1 = db.fs id1 ∧
      (∀ key, ObjectIdHex id1 = some key → ObjectIdHex id ≠ ObjectIdHex id1 →
        (Terminate db id).1.coll key = db.coll key)) ∧
    ((step db (.GetInfo id)).fs id1 = db.fs id1 ∧
      (∀ key, ObjectIdHex id1 = some key → (step db (.GetInfo id)).coll key = db.coll key)) ∧
    ((step db (.GetReader id)).fs id1 = db.fs id1 ∧
      (∀ key, ObjectIdHex id1 = some key →
        (step db (.GetReader id)).coll key = db.coll key)) ∧
    (∀ oid info key name, key ≠ oid → name ≠ oid.Hex →
      (NewUpload db oid info).1.coll key = db.coll key ∧
      (NewUpload db oid info).1.fs name = db.fs name) := by
  refine ⟨fun offset src => ⟨WriteChunk_fs_other db id offset src _ (Ne.symm h), ?_⟩,
    ⟨Terminate_fs_other db id _ (Ne.symm h), ?_⟩,
    ⟨rfl, fun _ _ => rfl⟩, ⟨rfl, fun _ _ => rfl⟩, ?_⟩
  · intro key hk hne
    exact WriteChunk_coll_other db id offset src key (by rw [← hk]; exact hne)
  · intro key hk hne
    exact Terminate_coll_other db id key (by rw [← hk]; exact hne)
  · intro oid info key name h1 h2
    exact ⟨NewUpload_coll_other db oid info key h1, NewUpload_fs_other db oid info name h2⟩

/-- Witness of C10 (amended): in a database holding two uploads, a successful
`WriteChunk` and a successful `Terminate` on the second leave the record and
the five-byte blob of the first as they are. -/
theorem per_id_isolation_witness :
    (WriteChunk twoUploads otherId.Hex 0 (.bytes [1])).2 = .returns (1, none) ∧
    (WriteChunk twoUploads otherId.Hex 0 (.bytes [1])).1.fs sampleId.Hex
      = some [104, 101, 108, 108, 111] ∧
    (WriteChunk twoUploads otherId.Hex 0 (.bytes [1])).1.coll sampleId
      = twoUploads.coll sampleId ∧
    (Terminate twoUploads otherId.Hex).2 = .returns none ∧
    (Terminate twoUploads otherId.Hex).1.fs sampleId.Hex = some [104, 101, 108, 108, 111] ∧
    (Terminate twoUploads otherId.Hex).1.coll sampleId = twoUploads.coll sampleId ∧
    twoUploads.coll sampleId ≠ none := by
  have h := per_id_isolation twoUploads otherId.Hex sampleId.Hex (by decide)
  refine ⟨by decide, ?_, (h.1 0 (.bytes [1])).2 sampleId (by decide) (by decide),
    by decide, ?_, h.2.1.2 sampleId (by decide) (by decide), by decide⟩
  · rw [(h.1 0 (.bytes [1])).1]; decide
  · rw [h.2.1.1]; decide

/-- C7, as stated, fails: `upperId` is another id than the one returned by
`NewUpload`, yet `Terminate(upperId)` removes the record of the returned id, on
which no `Terminate` was called, and `GetInfo` then fails with `NotFound`
instead of returning the metadata. -/
theorem metadata_preserved_counterexample :
    (NewUpload DB.empty sampleId sampleInfo).2 = (sampleId.Hex, none) ∧
    upperId ≠ sampleId.Hex ∧
    GetInfo (run (NewUpload DB.empty sampleId sampleInfo).1 [.Terminate upperId])
      sampleId.Hex = .returns (TusdFileInfo.zero, some .NotFound) := by
  decide

/-- C7, amended: after `NewUpload(info)` succeeds and returns `id`, and after
any sequence of calls in which no `Terminate` is called on an id that decodes
to the same object id as `id` (`id` itself, or a spelling of it with digits in
another case), `GetInfo(id)` succeeds and its `MetaData`, `Size`,
`SizeIsDeferred`, `IsPartial`, `IsFinal` and `PartialUploads` are those of
`info`. -/
theorem metadata_preserved (db db1 : DB) (oid : ObjectId) (info : TusdFileInfo) (id : String)
    (ops : List Op) (h : NewUpload db oid info = (db1, id, none))
    (hops : ∀ id2, Op.Terminate id2 ∈ ops → ObjectIdHex id2 ≠ ObjectIdHex id) :
    ∃ i, GetInfo (run db1 ops) id = .returns (i, none) ∧
      i.MetaData = info.MetaData ∧ i.Size = info.Size ∧
      i.SizeIsDeferred = info.SizeIsDeferred ∧ i.IsPartial = info.IsPartial ∧
      i.IsFinal = info.IsFinal ∧ i.PartialUploads = info.PartialUploads := by
  obtain ⟨-, hid, -, hc1⟩ := NewUpload_created db db1 oid info id h
  obtain ⟨r, hr, e⟩ := run_keeps_declared oid ops db1 _
    (fun id2 hm => by rw [← hid]; exact hops id2 hm) hc1
  refine ⟨_, GetInfo_ok _ id oid r hid hr, ?_⟩
  simp only [FileInfo.declared, FileInfo.mk.injEq] at e
  obtain ⟨-, e1, e2, -, e3, e4, e5, e6⟩ := e
  exact ⟨e3, e1, e2, e4, e5, e6⟩

/-- Witness of C7 (amended): metadata with an empty-string value survives
the calls of `sampleCalls`. -/
theorem metadata_preserved_witness :
    ∃ i, GetInfo (run (NewUpload DB.empty sampleId
        { sampleInfo with MetaData := [("name", "a.txt"), ("note", "")] }).1 sampleCalls)
      sampleId.Hex = .returns (i, none) ∧
      i.MetaData = [("name", "a.txt"), ("note", "")] := by
  obtain ⟨i, h1, h2, -⟩ := metadata_preserved DB.empty _ sampleId
    { sampleInfo with MetaData := [("name", "a.txt"), ("note", "")] } sampleId.Hex
    sampleCalls rfl (by
      intro id2 hm
      have : id2 = otherId.Hex := by simpa [sampleCalls] using hm
      subst this
      decide)
  exact ⟨i, h1, h2⟩

/-- C1, as stated, fails for the empty list of chunks: `NewUpload` stores the
declared offset, so with declared offset 5 and no chunk written `GetInfo`
reports offset 5 while the sum of the chunk lengths is 0. -/
theorem round_trip_counterexample :
    (NewUpload DB.empty sampleId { sampleInfo with Offset := 5 }).2 = (sampleId.Hex, none) ∧
    (writeAll (NewUpload DB.empty sampleId { sampleInfo with Offset := 5 }).1
      sampleId.Hex 0 []).2 = true ∧
    GetInfo (writeAll (NewUpload DB.empty sampleId { sampleInfo with Offset := 5 }).1
      sampleId.Hex 0 []).1 sampleId.Hex = .returns ({ sampleInfo with Offset := 5 }, none) ∧
    ({ sampleInfo with Offset := 5 } : TusdFileInfo).Offset ≠ (totalLength [] : Int) := by
  decide

/-- C1, amended: after `NewUpload(info)` succeeds and returns `id`, if the
chunks `c1..cn` (of total length below `2^63`) are written in order with
`offset_1 = 0` and `offset_(i+1) = offset_i + len(ci)` and every call succeeds,
then `GetReader(id)` yields exactly `c1 ++ ... ++ cn`, and `GetInfo(id).Offset`
is the sum of the `len(ci)` when at least one chunk was written and the
declared `info.Offset` when none was. -/
theorem round_trip (db db1 db2 : DB) (oid : ObjectId) (info : TusdFileInfo) (id : String)
    (chunks : List Bytes) (h : NewUpload db oid info = (db1, id, none))
    (hw : writeAll db1 id 0 chunks = (db2, true)) (hlen : totalLength chunks < 2 ^ 63) :
    GetReader db2 id = (some (Reader.bytes chunks.flatten), none) ∧
    ∃ i, GetInfo db2 id = .returns (i, none) ∧
      i.Offset = (if chunks = [] then info.Offset else (totalLength chunks : Int)) := by
  obtain ⟨-, hid, hb1, hc1⟩ := NewUpload_created db db1 oid info id h
  obtain ⟨-, a2, r1, a3, a4⟩ := writeAll_spec id oid hid chunks db1 0 [] _ hb1 hc1
    (le_refl _) (by have : (totalLength chunks : Int) < 2 ^ 63 := by exact_mod_cast hlen
                    omega)
  rw [hw] at a2 a3
  refine ⟨by rw [GetReader_ok db2 _ _ a2]; simp, _, GetInfo_ok db2 id oid r1 hid a3, ?_⟩
  show r1.Offset = _
  rw [a4]
  by_cases hcs : chunks = []
  · simp [hcs]
  · simp [hcs]

/-- Witness of C1 (amended): the concrete scenario of the specification,
`hello` written at offset 0 and `world` at offset 5. -/
theorem round_trip_witness :
    GetReader (writeAll (NewUpload DB.empty sampleId sampleInfo).1 sampleId.Hex 0
        [[104, 101, 108, 108, 111], [119, 111, 114, 108, 100]]).1 sampleId.Hex
      = (some (Reader.bytes [104, 101, 108, 108, 111, 119, 111, 114, 108, 100]), none) ∧
    ∃ i, GetInfo (writeAll (NewUpload DB.empty sampleId sampleInfo).1 sampleId.Hex 0
        [[104, 101, 108, 108, 111], [119, 111, 114, 108, 100]]).1 sampleId.Hex
      = .returns (i, none) ∧ i.Offset = 10 := by
  have h := round_trip DB.empty (NewUpload DB.empty sampleId sampleInfo).1
    (writeAll (NewUpload DB.empty sampleId sampleInfo).1 sampleId.Hex 0
        [[104, 101, 108, 108, 111], [119, 111, 114, 108, 100]]).1
    sampleId sampleInfo sampleId.Hex
    [[104, 101, 108, 108, 111], [119, 111, 114, 108, 100]] rfl rfl (by decide)
  obtain ⟨h1, i, h2, h3⟩ := h
  exact ⟨h1, i, h2, h3⟩

/-! ## Invariants over call sequences -/

theorem step_agree (used : List ObjectId) (db : DB) (op : Op) (ha : Agree db)
    (hn : BlobsIssued used db) (hf : op.fresh used = true)
    (hg : op.tracksOffset db = true) :
    Agree (step db op) ∧ BlobsIssued (op.issue used) (step db op) := by
  cases op with
  | GetInfo id => exact ⟨ha, hn⟩
  | GetReader id => exact ⟨ha, hn⟩
  | NewUpload oid info =>
    show Agree (NewUpload db oid info).1 ∧ BlobsIssued (oid :: used) (NewUpload db oid info).1
    have hmono : BlobsIssued (oid :: used) db := by
      intro name b hb
      obtain ⟨o, ho, e⟩ := hn name b hb
      exact ⟨o, List.mem_cons_of_mem _ ho, e⟩
    cases hc : db.coll oid with
    | some r => rw [NewUpload_duplicate db oid info r hc]; exact ⟨ha, hmono⟩
    | none =>
      have hnew : oid ∉ used := by simpa [Op.fresh] using hf
      have hb : db.fs oid.Hex = none := by
        cases hb : db.fs oid.Hex with
        | none => rfl
        | some b =>
          obtain ⟨o, ho, e⟩ := hn _ b hb
          rw [Hex_injective e] at hnew
          exact absurd ho hnew
      have h0 : info.Offset = 0 := by simpa [Op.tracksOffset] using hg
      rw [NewUpload_ok db oid info hc hb]
      constructor
      · intro key r hr
        by_cases hk : key = oid
        · subst hk
          rw [show ({ coll := _, fs := _ } : DB).coll key = _ from
            Function.update_same _ _ _] at hr
          cases hr
          exact ⟨[], Function.update_same _ _ _, by simpa using h0⟩
        · rw [show ({ coll := _, fs := _ } : DB).coll key = _ from
            Function.update_noteq hk _ _] at hr
          obtain ⟨b, hb1, hb2⟩ := ha key r hr
          refine ⟨b, ?_, hb2⟩
          rw [show ({ coll := _, fs := _ } : DB).fs key.Hex = _ from
            Function.update_noteq (fun e => hk (Hex_injective e)) _ _]
          exact hb1
      · intro name b hb1
        by_cases hk : name = oid.Hex
        · exact ⟨oid, List.mem_cons_self _ _, hk⟩
        · rw [show ({ coll := _, fs := _ } : DB).fs name = _ from
            Function.update_noteq hk _ _] at hb1
          exact hmono name b hb1
  | WriteChunk id offset src =>
    show Agree (WriteChunk db id offset src).1 ∧ BlobsIssued used (WriteChunk db id offset src).1
    cases hb : db.fs id with
    | none => rw [WriteChunk_no_blob db id offset src hb]; exact ⟨ha, hn⟩
    | some e =>
      obtain ⟨oid, -, hname⟩ := hn id e hb
      subst hname
      have hid := ObjectIdHex_Hex oid
      have hblobs : ∀ (c : DB → ObjectId → Option FileInfo) (x : Bytes),
          BlobsIssued used
            { coll := c db, fs := Function.update db.fs oid.Hex (some x) } := by
        intro c x name b1 hb3
        by_cases hk : name = oid.Hex
        · subst hk
          exact hn _ e hb
        · rw [show ({ coll := _, fs := _ } : DB).fs name = _ from
            Function.update_noteq hk _ _] at hb3
          exact hn name b1 hb3
      cases src with
      | broken err => rw [WriteChunk_broken db _ offset e err hb]; exact ⟨ha, hn⟩
      | bytes n =>
        cases hr : db.coll oid with
        | none =>
          rw [WriteChunk_no_record db _ offset e n oid hb hid hr]
          refine ⟨?_, hblobs (fun d => d.coll) (e ++ n)⟩
          intro key r1 hr1
          have hr2 : db.coll key = some r1 := hr1
          have hk : key ≠ oid := by
            intro ek; rw [ek, hr] at hr2; cases hr2
          obtain ⟨b1, c1, c2⟩ := ha key r1 hr2
          refine ⟨b1, ?_, c2⟩
          rw [show ({ coll := _, fs := _ } : DB).fs key.Hex = _ from
            Function.update_noteq (fun ek => hk (Hex_injective ek)) _ _]
          exact c1
        | some r =>
          simp only [Op.tracksOffset, hid, hr, hb, Bool.and_eq_true, decide_eq_true_eq] at hg
          obtain ⟨g1, g2⟩ := hg
          obtain ⟨b, hb1, hb2⟩ := ha _ r hr
          have hbe : b = e := by
            rw [hb] at hb1
            cases hb1; rfl
          subst hbe
          have hoff : int64 (int64 n.length + offset) = ((b ++ n).length : Int) := by
            rw [int64_of_range n.length (by omega) (by omega), g1, hb2,
              int64_of_range _ (by omega) (by omega)]
            simp only [List.length_append, Nat.cast_add]
            omega
          rw [WriteChunk_ok db _ offset b n oid r hb hid hr, hoff]
          refine ⟨?_, hblobs (fun d => Function.update d.coll oid
            (some { r with Offset := ((b ++ n).length : Int) })) (b ++ n)⟩
          intro key r1 hr1
          by_cases hk : key = oid
          · subst hk
            rw [show ({ coll := _, fs := _ } : DB).coll key = _ from
              Function.update_same _ _ _] at hr1
            cases hr1
            exact ⟨b ++ n, Function.update_same _ _ _, rfl⟩
          · rw [show ({ coll := _, fs := _ } : DB).coll key = _ from
              Function.update_noteq hk _ _] at hr1
            obtain ⟨b1, c1, c2⟩ := ha key r1 hr1
            refine ⟨b1, ?_, c2⟩
            rw [show ({ coll := _, fs := _ } : DB).fs key.Hex = _ from
              Function.update_noteq (fun ek => hk (Hex_injective ek)) _ _]
            exact c1
  | Terminate id =>
    show Agree (Terminate db id).1 ∧ BlobsIssued used (Terminate db id).1
    cases hid : ObjectIdHex id with
    | none => rw [Terminate_malformed db id hid]; exact ⟨ha, hn⟩
    | some oid =>
      cases h0 : db.coll oid with
      | none => rw [Terminate_no_record db id oid hid h0]; exact ⟨ha, hn⟩
      | some r0 =>
        have hgone := Terminate_removes_record db id oid r0 hid h0
        have hblobs : BlobsIssued used (Terminate db id).1 := by
          intro name b hb
          by_cases hk : name = id
          · subst hk
            exfalso
            cases hb0 : db.fs name with
            | none =>
              rw [Terminate_no_blob db name oid r0 hid h0 hb0] at hb
              rw [hb0] at hb; cases hb
            | some b0 =>
              rw [Terminate_ok db name oid r0 b0 hid h0 hb0] at hb
              rw [show ({ coll := _, fs := _ } : DB).fs name = _ from
                Function.update_same _ _ _] at hb
              cases hb
          · rw [Terminate_fs_other db id name hk] at hb
            exact hn name b hb
        refine ⟨?_, hblobs⟩
        intro key r hr
        have hk : key ≠ oid := by
          intro ek; rw [ek, hgone] at hr; cases hr
        have hk1 : ObjectIdHex id ≠ some key := by
          rw [hid]; intro ek; exact hk (Option.some.inj ek).symm
        rw [Terminate_coll_other db id key hk1] at hr
        obtain ⟨b, c1, c2⟩ := ha key r hr
        refine ⟨b, ?_, c2⟩
        rw [Terminate_fs_other db id key.Hex
          (fun ek => hk1 (by rw [← ek]; exact ObjectIdHex_Hex key))]
        exact c1

theorem run_agree (ops : List Op) :
    ∀ (used : List ObjectId) (db : DB), Agree db → BlobsIssued used db →
      FreshFrom used ops = true → Tracked db ops = true → Agree (run db ops) := by
  induction ops with
  | nil => intro used db ha _ _ _; exact ha
  | cons op ops ih =>
    intro used db ha hn hf ht
    simp only [Tracked, Bool.and_eq_true] at ht
    simp only [FreshFrom, Bool.and_eq_true] at hf
    obtain ⟨a1, a2⟩ := step_agree used db op ha hn hf.1 ht.1
    exact ih (op.issue used) (step db op) a1 a2 hf.2 ht.2

/-- C2, as stated, fails: after an upload is created and one byte is written
at claimed offset 7, its record holds offset 8 while its blob holds one byte,
so the state reached from the empty store violates offset/blob agreement. -/
theorem offset_blob_agreement_counterexample :
    Option.map FileInfo.Offset ((run DB.empty staleCalls).coll sampleId) = some 8 ∧
    (run DB.empty staleCalls).fs sampleId.Hex = some [1] ∧
    ¬ Agree (run DB.empty staleCalls) := by
  refine ⟨by decide, by decide, ?_⟩
  intro h
  have hr : (run DB.empty staleCalls).coll sampleId = some
      { Id := sampleId, Size := 10, SizeIsDeferred := false, Offset := 8,
        MetaData := [("name", "a.txt")], IsPartial := false, IsFinal := false,
        PartialUploads := [] } := by decide
  obtain ⟨b, hb, ho⟩ := h sampleId _ hr
  have hb1 : (run DB.empty staleCalls).fs sampleId.Hex = some [1] := by decide
  rw [hb1] at hb
  cases hb
  simp at ho

/-- C2, amended: in every state reached from the empty store by a sequence of
`NewUpload`, `WriteChunk`, `GetInfo`, `GetReader` and `Terminate` calls in which
every upload is declared with offset 0 and every chunk is written at the offset
currently recorded for its upload (content staying below `2^63` bytes), the ids
generated by `bson.NewObjectId()` being unique, every record's offset equals the
number of bytes of the blob stored under the same id. -/
theorem offset_blob_agreement (ops : List Op) (hf : FreshIds ops = true)
    (h : Tracked DB.empty ops = true) : Agree (run DB.empty ops) :=
  run_agree ops [] DB.empty (fun _ _ hr => by cases hr) (fun _ _ hb => by cases hb) hf h

/-- Witness of C2 (amended): the calls of `sampleCalls` after the creation of
the upload track the offset, and the record of the upload then holds the
length of its blob. -/
theorem offset_blob_agreement_witness :
    FreshIds (.NewUpload sampleId sampleInfo :: sampleCalls) = true ∧
    Tracked DB.empty (.NewUpload sampleId sampleInfo :: sampleCalls) = true ∧
    Agree (run DB.empty (.NewUpload sampleId sampleInfo :: sampleCalls)) :=
  ⟨by decide, by decide,
    offset_blob_agreement (.NewUpload sampleId sampleInfo :: sampleCalls)
      (by decide) (by decide)⟩

theorem step_bounded (db : DB) (op : Op) (hb : Bounded db) (hg : op.withinSize db = true) :
    Bounded (step db op) := by
  cases op with
  | GetInfo id => exact hb
  | GetReader id => exact hb
  | NewUpload oid info =>
    show Bounded (NewUpload db oid info).1
    intro key r hr hd
    by_cases hk : key = oid
    · subst hk
      cases hc : db.coll key with
      | some r0 =>
        rw [NewUpload_duplicate db key info r0 hc] at hr
        exact hb key r hr hd
      | none =>
        have hins : (NewUpload db key info).1.coll key = some
            { Id := key, Size := info.Size, SizeIsDeferred := info.SizeIsDeferred,
              Offset := info.Offset, MetaData := info.MetaData,
              IsPartial := info.IsPartial, IsFinal := info.IsFinal,
              PartialUploads := info.PartialUploads } := by
          cases hf : db.fs key.Hex with
          | some b =>
            simp only [NewUpload, Insert, hc, GridFS.Create, Function.update_same, hf]
          | none =>
            rw [NewUpload_ok db key info hc hf]
            exact Function.update_same _ _ _
        rw [hins] at hr
        cases hr
        simp only [Op.withinSize, Bool.or_eq_true, decide_eq_true_eq] at hg
        rcases hg with hg | hg
        · simp only at hd; rw [hd] at hg; cases hg
        · exact hg
    · rw [NewUpload_coll_other db oid info key hk] at hr
      exact hb key r hr hd
  | WriteChunk id offset src =>
    show Bounded (WriteChunk db id offset src).1
    intro key r hr hd
    by_cases hk : ObjectIdHex id = some key
    · cases hf : db.fs id with
      | none => rw [WriteChunk_no_blob db id offset src hf] at hr; exact hb _ r hr hd
      | some e =>
        cases src with
        | broken err => rw [WriteChunk_broken db id offset e err hf] at hr; exact hb _ r hr hd
        | bytes n =>
          cases hc : db.coll key with
          | none =>
            rw [WriteChunk_no_record db id offset e n key hf hk hc] at hr
            exact hb _ r hr hd
          | some r0 =>
            rw [WriteChunk_ok db id offset e n key r0 hf hk hc] at hr
            rw [show ({ coll := _, fs := _ } : DB).coll key = _ from
              Function.update_same _ _ _] at hr
            cases hr
            simp only [Op.withinSize, hk, hc, Bool.or_eq_true, decide_eq_true_eq] at hg
            rcases hg with hg | hg
            · simp only at hd; rw [hd] at hg; cases hg
            · exact hg
    · rw [WriteChunk_coll_other db id offset src key hk] at hr
      exact hb key r hr hd
  | Terminate id =>
    show Bounded (Terminate db id).1
    intro key r hr hd
    by_cases hk : ObjectIdHex id = some key
    · cases h0 : db.coll key with
      | none => rw [Terminate_no_record db id key hk h0] at hr; exact hb _ r hr hd
      | some r0 =>
        rw [Terminate_removes_record db id key r0 hk h0] at hr
        cases hr
    · rw [Terminate_coll_other db id key hk] at hr
      exact hb key r hr hd

theorem run_bounded (ops : List Op) :
    ∀ db : DB, Bounded db → Sized db ops = true → Bounded (run db ops) := by
  induction ops with
  | nil => intro db hb _; exact hb
  | cons op ops ih =>
    intro db hb ht
    simp only [Sized, Bool.and_eq_true] at ht
    exact ih (step db op) (step_bounded db op hb ht.1) ht.2

/-- C8, as stated, fails: after an upload of declared size 1 (not deferred) is
created and two bytes are written at offset 0, its record holds offset 2, which
exceeds its size 1. -/
theorem offset_bounded_counterexample :
    (run DB.empty oversizeCalls).coll sampleId = some
      { Id := sampleId, Size := 1, SizeIsDeferred := false, Offset := 2,
        MetaData := [("name", "a.txt")], IsPartial := false, IsFinal := false,
        PartialUploads := [] } ∧
    ¬ Bounded (run DB.empty oversizeCalls) := by
  have hr : (run DB.empty oversizeCalls).coll sampleId = some
      { Id := sampleId, Size := 1, SizeIsDeferred := false, Offset := 2,
        MetaData := [("name", "a.txt")], IsPartial := false, IsFinal := false,
        PartialUploads := [] } := by decide
  refine ⟨hr, ?_⟩
  intro h
  have := h sampleId _ hr rfl
  simp at this

/-- C8, amended: the store never compares an offset with a size; in every
state reached from the empty store by a sequence of calls in which every upload
whose size is not deferred is declared with `offset <= size` and every chunk
written to such an upload ends at or before its size, every record whose size
is not deferred has `offset <= size`. -/
theorem offset_bounded (ops : List Op) (h : Sized DB.empty ops = true) :
    Bounded (run DB.empty ops) :=
  run_bounded ops DB.empty (fun _ _ hr => by cases hr) h

/-- Witness of C8 (amended): the calls of `sizedCalls` respect the declared
sizes, and the state they reach is bounded. -/
theorem offset_bounded_witness :
    Sized DB.empty sizedCalls = true ∧ Bounded (run DB.empty sizedCalls) :=
  ⟨by decide, offset_bounded sizedCalls (by decide)⟩

end MongoStore
